import Mathlib

/-!
Verification development for the ROAR-Sim MPC controller
(`roar_autonomous_system/control/mpc_controller.py`).

The Python source is shallowly embedded: machine floats become real
numbers, NumPy arrays become lists of reals, and the per-tick stateful
`VehicleMPCController.run_step` method becomes a pure state-passing
function.  The SciPy `minimize` call is an external collaborator and is
modelled as an oracle argument returning an `OptResult`.
-/

namespace RoarMPC

noncomputable section

/-- Names of the six state-variable series.  The iteration order of the
tuple `self.state_vars = ('x', 'y', 'v', 'ψ', 'cte', 'eψ')` (line 57 of
the source) is recorded separately in `state_vars`. -/
inductive StateVar
  | x | y | v | psi | cte | epsi
deriving DecidableEq

/-- Embedding of `self.state_vars` (line 57): note the order is
x, y, v, ψ, cte, eψ — with `v` before `ψ`. -/
def state_vars : List StateVar := [.x, .y, .v, .psi, .cte, .epsi]

/-- Embedding of the six initial-state parameters
`x_init, y_init, ψ_init, v_init, cte_init, eψ_init` (lines 162–169). -/
structure InitState where
  x_init : ℝ
  y_init : ℝ
  psi_init : ℝ
  v_init : ℝ
  cte_init : ℝ
  epsi_init : ℝ

/-- Embedding of the symbolic polynomial-coefficient parameters
`poly0 … poly3`, highest degree first, produced by
`create_array_of_symbols('poly', self.poly_degree + 1)` with the
hard-coded `poly_degree = 3` (lines 76 and 159). -/
structure Poly4 where
  poly0 : ℝ
  poly1 : ℝ
  poly2 : ℝ
  poly3 : ℝ

/-! Accessors into the flattened decision vector.  The layout follows the
tuple `vars_ = (*x, *y, *ψ, *v, *cte, *eψ, *a, *δ)` (lines 183–189): the
series `x` occupies indices `0..N-1`, `y` occupies `N..2N-1`, `ψ`
occupies `2N..3N-1`, `v` occupies `3N..4N-1`, `cte` occupies `4N..5N-1`,
`eψ` occupies `5N..6N-1`, the acceleration actuator `a` occupies
`6N..7N-1` and the steering actuator `δ` occupies `7N..8N-1`.  The
vector is modelled as a total function `ℕ → ℝ`; indices at or beyond
`8N` are never read by the embedded expressions. -/

/-- Index of `x[t]` in the decision-vector layout. -/
def xAt (_N : ℕ) (vars : ℕ → ℝ) (t : ℕ) : ℝ := vars t

/-- Index of `y[t]` in the decision-vector layout. -/
def yAt (N : ℕ) (vars : ℕ → ℝ) (t : ℕ) : ℝ := vars (N + t)

/-- Index of `ψ[t]` in the decision-vector layout. -/
def psiAt (N : ℕ) (vars : ℕ → ℝ) (t : ℕ) : ℝ := vars (2 * N + t)

/-- Index of `v[t]` in the decision-vector layout. -/
def vAt (N : ℕ) (vars : ℕ → ℝ) (t : ℕ) : ℝ := vars (3 * N + t)

/-- Index of `cte[t]` in the decision-vector layout. -/
def cteAt (N : ℕ) (vars : ℕ → ℝ) (t : ℕ) : ℝ := vars (4 * N + t)

/-- Index of `eψ[t]` in the decision-vector layout. -/
def epsiAt (N : ℕ) (vars : ℕ → ℝ) (t : ℕ) : ℝ := vars (5 * N + t)

/-- Index of `a[t]` (acceleration actuator) in the decision-vector layout. -/
def aAt (N : ℕ) (vars : ℕ → ℝ) (t : ℕ) : ℝ := vars (6 * N + t)

/-- Index of `δ[t]` (steering actuator) in the decision-vector layout. -/
def deltaAt (N : ℕ) (vars : ℕ → ℝ) (t : ℕ) : ℝ := vars (7 * N + t)

/-- Embedding of the local-curve value
`curve = sum(poly[-(i+1)] * x[t-1]**i for i in range(len(poly)))`
(line 221), unrolled for the fixed length-4 coefficient tuple:
`poly[-1]·x⁰ + poly[-2]·x¹ + poly[-3]·x² + poly[-4]·x³`. -/
def curveAt (p : Poly4) (xv : ℝ) : ℝ :=
  p.poly3 * xv ^ 0 + p.poly2 * xv ^ 1 + p.poly1 * xv ^ 2 + p.poly0 * xv ^ 3

/-- Embedding of the desired-heading value
`ψdes = sum(poly[-(i+1)] * i * x[t-1]**(i-1) for i in range(1, len(poly)))`
(line 224), unrolled for the length-4 coefficient tuple:
`poly[-2]·1·x⁰ + poly[-3]·2·x¹ + poly[-4]·3·x²`. -/
def psiDesAt (p : Poly4) (xv : ℝ) : ℝ :=
  p.poly2 * 1 * xv ^ 0 + p.poly1 * 2 * xv ^ 1 + p.poly0 * 3 * xv ^ 2

/-- Embedding of the equality-constraint expression `eq_constr[s][t]`
built at lines 212–231.  At `t = 0` each series is pinned to its
initial-state parameter (lines 213–218); for `t ≥ 1` the discrete
bicycle-model rows of lines 226–231 apply. -/
def eq_constr (N : ℕ) (dt Lf : ℝ) (poly : Poly4) (init : InitState)
    (s : StateVar) (t : ℕ) (vars : ℕ → ℝ) : ℝ :=
  if t = 0 then
    match s with
    | .x => xAt N vars 0 - init.x_init
    | .y => yAt N vars 0 - init.y_init
    | .psi => psiAt N vars 0 - init.psi_init
    | .v => vAt N vars 0 - init.v_init
    | .cte => cteAt N vars 0 - init.cte_init
    | .epsi => epsiAt N vars 0 - init.epsi_init
  else
    match s with
    | .x =>
        xAt N vars t -
          (xAt N vars (t - 1) + vAt N vars (t - 1) * Real.cos (psiAt N vars (t - 1)) * dt)
    | .y =>
        yAt N vars t -
          (yAt N vars (t - 1) + vAt N vars (t - 1) * Real.sin (psiAt N vars (t - 1)) * dt)
    | .psi =>
        psiAt N vars t -
          (psiAt N vars (t - 1) - vAt N vars (t - 1) * deltaAt N vars (t - 1) / Lf * dt)
    | .v =>
        vAt N vars t - (vAt N vars (t - 1) + aAt N vars (t - 1) * dt)
    | .cte =>
        cteAt N vars t -
          (curveAt poly (xAt N vars (t - 1)) - yAt N vars (t - 1) +
            vAt N vars (t - 1) * Real.sin (epsiAt N vars (t - 1)) * dt)
    | .epsi =>
        epsiAt N vars t -
          (psiAt N vars (t - 1) - psiDesAt poly (xAt N vars (t - 1)) -
            vAt N vars (t - 1) * deltaAt N vars (t - 1) / Lf * dt)

/-- Type of a compiled constraint evaluator: `sym.lambdify` produces a
function of the decision vector and the ten parameters
(six initial-state scalars and four polynomial coefficients),
lines 248–253. -/
abbrev ConstrFun := InitState → Poly4 → (ℕ → ℝ) → ℝ

/-- One block of the constraint-function list: the inner loop
`for t in range(self.steps_ahead)` of lines 238–244 for a fixed state
variable `s`.  Each entry records the registered constraint type
(`'type': 'eq'`) and the compiled evaluator. -/
def constrBlock (N : ℕ) (dt Lf : ℝ) (s : StateVar) : List (String × ConstrFun) :=
  (List.range N).map
    (fun t => ("eq", fun init poly vars => eq_constr N dt Lf poly init s t vars))

/-- Embedding of `self.constr_funcs` (lines 237–244): the outer loop runs
over `self.state_vars` in the source order x, y, v, ψ, cte, eψ. -/
def constr_funcs (N : ℕ) (dt Lf : ℝ) : List (String × ConstrFun) :=
  constrBlock N dt Lf .x ++
    (constrBlock N dt Lf .y ++
      (constrBlock N dt Lf .v ++
        (constrBlock N dt Lf .psi ++
          (constrBlock N dt Lf .cte ++ constrBlock N dt Lf .epsi))))

/-- Horner evaluation of a coefficient list, highest degree first — the
algorithm of `np.polyval`, used by the claims as the meaning of
"evaluating the local polynomial", and by `get_state0` (line 271). -/
def polyval (p : List ℝ) (x : ℝ) : ℝ := p.foldl (fun acc c => acc * x + c) 0

/-- Specification-side constraint expression, written from the words of
the claim: at `t = 0` each series is pinned to its initial-state
parameter; for `t ≥ 1` the six listed bicycle-model rows apply, where
`curve` "evaluates the local polynomial" (rendered as `polyval` on the
coefficient list, highest degree first) and `ψdes` "is its derivative"
(rendered as the Mathlib derivative `deriv` of that evaluation map). -/
def specConstr (N : ℕ) (dt Lf : ℝ) (poly : Poly4) (init : InitState)
    (s : StateVar) (t : ℕ) (vars : ℕ → ℝ) : ℝ :=
  if t = 0 then
    match s with
    | .x => xAt N vars 0 - init.x_init
    | .y => yAt N vars 0 - init.y_init
    | .psi => psiAt N vars 0 - init.psi_init
    | .v => vAt N vars 0 - init.v_init
    | .cte => cteAt N vars 0 - init.cte_init
    | .epsi => epsiAt N vars 0 - init.epsi_init
  else
    match s with
    | .x =>
        xAt N vars t -
          (xAt N vars (t - 1) + vAt N vars (t - 1) * Real.cos (psiAt N vars (t - 1)) * dt)
    | .y =>
        yAt N vars t -
          (yAt N vars (t - 1) + vAt N vars (t - 1) * Real.sin (psiAt N vars (t - 1)) * dt)
    | .psi =>
        psiAt N vars t -
          (psiAt N vars (t - 1) - vAt N vars (t - 1) * deltaAt N vars (t - 1) / Lf * dt)
    | .v =>
        vAt N vars t - (vAt N vars (t - 1) + aAt N vars (t - 1) * dt)
    | .cte =>
        cteAt N vars t -
          (polyval [poly.poly0, poly.poly1, poly.poly2, poly.poly3] (xAt N vars (t - 1)) -
            yAt N vars (t - 1) +
            vAt N vars (t - 1) * Real.sin (epsiAt N vars (t - 1)) * dt)
    | .epsi =>
        epsiAt N vars t -
          (psiAt N vars (t - 1) -
            deriv (fun u => polyval [poly.poly0, poly.poly1, poly.poly2, poly.poly3] u)
              (xAt N vars (t - 1)) -
            vAt N vars (t - 1) * deltaAt N vars (t - 1) / Lf * dt)

/-- Specification-side constraint block for one state variable. -/
def specBlock (N : ℕ) (dt Lf : ℝ) (s : StateVar) : List (String × ConstrFun) :=
  (List.range N).map
    (fun t => ("eq", fun init poly vars => specConstr N dt Lf poly init s t vars))

/-- Specification-side constraint list, in the order the claim lists the
six families: x, y, ψ, v, cte, eψ. -/
def specConstrFuncs (N : ℕ) (dt Lf : ℝ) : List (String × ConstrFun) :=
  specBlock N dt Lf .x ++
    (specBlock N dt Lf .y ++
      (specBlock N dt Lf .psi ++
        (specBlock N dt Lf .v ++
          (specBlock N dt Lf .cte ++ specBlock N dt Lf .epsi))))

/-- Default cost coefficient `self.cte_coeff = 100` (line 63). -/
def cte_coeff : ℝ := 100

/-- Default cost coefficient `self.epsi_coeff = 100` (line 64). -/
def epsi_coeff : ℝ := 100

/-- Default cost coefficient `self.speed_coeff = 0.4` (line 65). -/
def speed_coeff : ℝ := 0.4

/-- Default cost coefficient `self.acc_coeff = 1` (line 66). -/
def acc_coeff : ℝ := 1

/-- Default cost coefficient `self.steer_coeff = 0.1` (line 67). -/
def steer_coeff : ℝ := 0.1

/-- Default cost coefficient `self.consec_acc_coeff = 50` (line 68). -/
def consec_acc_coeff : ℝ := 50

/-- Default cost coefficient `self.consec_steer_coeff = 50` (line 69). -/
def consec_steer_coeff : ℝ := 50

/-- Embedding of the symbolic cost accumulation of lines 191–209: the
first loop adds the reference-state and actuator penalties for
`t in range(steps_ahead)`; the second loop adds the
consecutive-actuator smoothing penalties for
`t in range(steps_ahead - 1)`, continuing from the same accumulator.
(The stray unary `+` in the middle of the Python expression at
lines 196–197 is a no-op and is dropped.) -/
def cost (N : ℕ) (target_speed : ℝ) (vars : ℕ → ℝ) : ℝ :=
  (List.range (N - 1)).foldl
    (fun c t =>
      c +
        (consec_acc_coeff * (aAt N vars (t + 1) - aAt N vars t) ^ 2 +
          consec_steer_coeff * (deltaAt N vars (t + 1) - deltaAt N vars t) ^ 2))
    ((List.range N).foldl
      (fun c t =>
        c +
          (cte_coeff * (cteAt N vars t) ^ 2 + epsi_coeff * (epsiAt N vars t) ^ 2 +
            speed_coeff * (vAt N vars t - target_speed) ^ 2 +
            acc_coeff * (aAt N vars t) ^ 2 + steer_coeff * (deltaAt N vars t) ^ 2))
      0)

/-- Embedding of `self.bounds` (lines 79–83): `6N` unconstrained pairs,
then `N` throttle bounds `(0, max_throttle)`, then `N` steering bounds
`(-max_steering, max_steering)`.  Python's `None` endpoint becomes
`Option.none`. -/
def bounds (N : ℕ) (max_throttle max_steering : ℝ) : List (Option ℝ × Option ℝ) :=
  List.replicate (6 * N) (none, none) ++
    (List.replicate N (some 0, some max_throttle) ++
      List.replicate N (some (-max_steering), some max_steering))

/-- Embedding of `num_vars = (len(self.state_vars) + 2)` (line 86). -/
def num_vars : ℕ := state_vars.length + 2

/-- Embedding of the warm-start placeholder
`self.state0 = np.zeros(self.steps_ahead * num_vars)` (line 87). -/
def state0_init (N : ℕ) : List ℝ := List.replicate (N * num_vars) 0

/-- NumPy slice assignment `buf[start:start+len(vals)] = vals` on a list:
the slice is replaced, everything else is kept. -/
def writeSlice (buf : List ℝ) (start : ℕ) (vals : List ℝ) : List ℝ :=
  buf.take start ++ (vals ++ buf.drop (start + vals.length))

/-- Embedding of `np.linspace(0, 1, N)`: `N` evenly spaced samples over
`[0, 1]` inclusive; a single sample is `[0]`. -/
def linspace01 (N : ℕ) : List ℝ :=
  if N ≤ 1 then List.replicate N 0
  else (List.range N).map (fun (i : ℕ) => (i : ℝ) / ((N : ℝ) - 1))

/-- Embedding of `VehicleMPCController.get_state0` (lines 266–282).  The
mutable `self.state0` buffer is passed in explicitly; the eight NumPy
slice assignments become eight `writeSlice`s (the scalar assignments
broadcast to length-`N` slices).  `a = a or 0` / `delta = delta or 0`
become `Option.getD _ 0`. -/
def get_state0 (N : ℕ) (buf : List ℝ) (v cte epsi : ℝ) (a delta : Option ℝ)
    (poly : List ℝ) : List ℝ :=
  let a0 := a.getD 0
  let d0 := delta.getD 0
  let xs := linspace01 N
  let ys := xs.map (fun u => polyval poly u)
  let b1 := writeSlice buf 0 xs
  let b2 := writeSlice b1 N ys
  let b3 := writeSlice b2 (2 * N) (List.replicate N 0)
  let b4 := writeSlice b3 (3 * N) (List.replicate N v)
  let b5 := writeSlice b4 (4 * N) (List.replicate N cte)
  let b6 := writeSlice b5 (5 * N) (List.replicate N epsi)
  let b7 := writeSlice b6 (6 * N) (List.replicate N a0)
  writeSlice b7 (7 * N) (List.replicate N d0)

/-- Model of `np.polyfit` on a single sample `(x0, y0)` with fit degree
`deg`, as called at line 118 with one waypoint.  NumPy scales each
Vandermonde column to unit Euclidean norm and solves the (here
underdetermined) least-squares system with LAPACK's minimum-norm
solution; for a single sample with `x0 ≠ 0` the scaled system is a row
of signs, so the coefficient of `x^(deg-i)` (position `i`, highest
degree first) is `y0 / ((deg+1) · x0^(deg-i))`. -/
def polyfit1 (x0 y0 : ℝ) (deg : ℕ) : List ℝ :=
  (List.range (deg + 1)).map (fun i => y0 / (((deg : ℝ) + 1) * x0 ^ (deg - i)))

/-- Embedding of the static method
`modified_transform_into_cars_coordinate_system` (lines 318–326), for a
single waypoint `pts = [wx, wy]`: `diff = pts - [x, y]`, then
`pts_car[0] = cos_ψ·diff[0] + sin_ψ·diff[1]` and
`pts_car[1] = sin_ψ·diff[0] - cos_ψ·diff[1]`. -/
def modified_transform_into_cars_coordinate_system
    (wx wy x y cos_psi sin_psi : ℝ) : ℝ × ℝ :=
  (cos_psi * (wx - x) + sin_psi * (wy - y),
   sin_psi * (wx - x) - cos_psi * (wy - y))

/-- Modelled from the spec: the `Control` message class lives in
`roar_autonomous_system.util.models`, which is not under `src/`.
Per spec section 3 the command output is "a pair (steering, throttle)
… or a 'no update' signal on solver failure" and per section 6 the
per-tick output carries "unset/previous values on failure", so both
fields are optional and a freshly constructed `Control()` leaves them
unset. -/
structure Control where
  steering : Option ℝ := none
  throttle : Option ℝ := none

/-- Result of the external SciPy `minimize` call: a status flag (the
source tests `'success' in result.message`, line 143) and the solution
vector `result.x`. -/
structure OptResult where
  success : Bool
  x : List ℝ

/-- Mutable controller state threaded across ticks: `self.steer` and
`self.throttle` (lines 95–96, comment "To keep the previous state") and
the reused warm-start buffer `self.state0` (line 87). -/
structure CtrlState where
  steer : Option ℝ
  throttle : Option ℝ
  state0 : List ℝ

/-- Controller state as `__init__` leaves it (lines 87 and 95–96):
no previous actuator command, all-zero warm-start buffer. -/
def initCtrlState (N : ℕ) : CtrlState :=
  { steer := none, throttle := none, state0 := state0_init N }

/-- Logging levels of the events `run_step` can emit. -/
inductive LogLevel
  | debug | info | error
deriving DecidableEq

/-- Per-tick result: the returned `Control`, the controller state after
the tick, and the log events emitted during the tick. -/
structure TickResult where
  control : Control
  state : CtrlState
  log : List (LogLevel × String)

/-- Construction-time configuration used by `run_step`:
`steps_ahead`, `max_throttle` and `max_steering` (lines 42–44). -/
structure Config where
  steps_ahead : ℕ
  max_throttle : ℝ
  max_steering : ℝ

/-- Embedding of `VehicleMPCController.run_step` (lines 103–149).  The
vehicle pose enters as the planar position `(x, y)`, the heading `psi`
(the source computes it as `arctan2(orient.pitch, orient.roll)` at line
108; the derivation from the rotation record is outside the verified
claims) and the speed `v`; the next waypoint enters as `(wx, wy)`.  The
SciPy solve of `minimize_cost` (lines 284–297) is the oracle `solver`,
applied to the fixed bounds, the freshly written warm-start buffer and
the per-tick parameter tuple `init = (0, 0, 0, v, cte, eψ, *poly)`
(line 138).  Python's negative indexing `result.x[-N]` and
`result.x[-2N]` (lines 144–145) becomes `getD (length - N)` and
`getD (length - 2N)`. -/
def run_step (cfg : Config) (st : CtrlState) (x y psi v wx wy : ℝ)
    (solver : List (Option ℝ × Option ℝ) → List ℝ → List ℝ → OptResult) :
    TickResult :=
  let cos_psi := Real.cos psi
  let sin_psi := Real.sin psi
  let pts_car := modified_transform_into_cars_coordinate_system wx wy x y cos_psi sin_psi
  let poly := polyfit1 pts_car.1 pts_car.2 3
  let cte := poly.getD (poly.length - 1) 0
  let epsi := -Real.arctan (poly.getD (poly.length - 2) 0)
  let init := [0, 0, 0, v, cte, epsi] ++ poly
  let s0 := get_state0 cfg.steps_ahead st.state0 v cte epsi st.steer st.throttle poly
  let r := solver (bounds cfg.steps_ahead cfg.max_throttle cfg.max_steering) s0 init
  if r.success = true then
    { control :=
        { steering := some (r.x.getD (r.x.length - cfg.steps_ahead) 0),
          throttle := some (r.x.getD (r.x.length - 2 * cfg.steps_ahead) 0) },
      state := { st with state0 := s0 },
      log := [] }
  else
    { control := { steering := none, throttle := none },
      state := { st with state0 := s0 },
      log := [(LogLevel.debug, "Unsuccessful optimization")] }

end

end RoarMPC

namespace RoarMPC

/-- Accumulating a pointwise term over `List.range n` (the shape of the
Python `for t in range(n): cost += …` loops) equals the starting value
plus the corresponding `Finset.range` sum. -/
theorem foldl_add_range (f : ℕ → ℝ) (a : ℝ) (n : ℕ) :
    (List.range n).foldl (fun c t => c + f t) a = a + ∑ t ∈ Finset.range n, f t := by
  induction n with
  | zero => simp
  | succ n ih =>
    rw [List.range_succ, List.foldl_append]
    simp only [List.foldl_cons, List.foldl_nil, ih, Finset.sum_range_succ]
    ring

/-- Reading inside a `replicate` with `getD` returns the replicated value. -/
theorem getD_replicate_lt {α : Type _} (a d : α) (n i : ℕ) (h : i < n) :
    (List.replicate n a).getD i d = a := by
  induction n generalizing i with
  | zero => omega
  | succ n ih =>
    cases i with
    | zero => simp [List.replicate_succ]
    | succ i =>
      rw [List.replicate_succ, List.getD_cons_succ]
      exact ih i (by omega)

/-- Reading an appended list with `getD` below the split point reads the
left part. -/
theorem getD_append_lt {α : Type _} (l₁ l₂ : List α) (d : α) (i : ℕ) (h : i < l₁.length) :
    (l₁ ++ l₂).getD i d = l₁.getD i d := by
  induction l₁ generalizing i with
  | nil => simp at h
  | cons x xs ih =>
    cases i with
    | zero => rfl
    | succ i =>
      simp only [List.cons_append, List.getD_cons_succ]
      exact ih i (by simpa using h)

/-- Reading an appended list with `getD` at or past the split point reads
the right part. -/
theorem getD_append_ge {α : Type _} (l₁ l₂ : List α) (d : α) (i : ℕ) (h : l₁.length ≤ i) :
    (l₁ ++ l₂).getD i d = l₂.getD (i - l₁.length) d := by
  induction l₁ generalizing i with
  | nil => simp
  | cons x xs ih =>
    cases i with
    | zero => simp at h
    | succ i =>
      simp only [List.cons_append, List.getD_cons_succ, List.length_cons,
        Nat.succ_sub_succ]
      exact ih i (by simpa using h)

/-- The `np.linspace(0, 1, N)` model always has `N` samples. -/
theorem linspace01_length (N : ℕ) : (linspace01 N).length = N := by
  unfold linspace01
  split
  · simp
  · rw [List.length_map, List.length_range]

/-- Writing a slice right after a prefix of matching length keeps the
prefix, installs the new values and keeps the far tail. -/
theorem writeSlice_chain (P rest vals : List ℝ) (s : ℕ) (hp : P.length = s) :
    writeSlice (P ++ rest) s vals = (P ++ vals) ++ rest.drop vals.length := by
  subst hp
  unfold writeSlice
  rw [List.take_left, List.drop_append, List.append_assoc]

/-- Normal form of `get_state0` on a buffer of the expected length `8N`:
every one of the `8N` entries is overwritten, so the result is the plain
concatenation of the eight series and retains nothing of the buffer. -/
theorem get_state0_eq (N : ℕ) (buf : List ℝ) (v cte epsi : ℝ) (a delta : Option ℝ)
    (poly : List ℝ) (h : buf.length = 8 * N) :
    get_state0 N buf v cte epsi a delta poly =
      linspace01 N ++
        ((linspace01 N).map (fun u => polyval poly u) ++
          (List.replicate N 0 ++
            (List.replicate N v ++
              (List.replicate N cte ++
                (List.replicate N epsi ++
                  (List.replicate N (a.getD 0) ++
                    List.replicate N (delta.getD 0))))))) := by
  have hxs : (linspace01 N).length = N := linspace01_length N
  have hys : ((linspace01 N).map (fun u => polyval poly u)).length = N := by
    rw [List.length_map, hxs]
  dsimp only [get_state0]
  have h1 : writeSlice buf 0 (linspace01 N) =
      linspace01 N ++ buf.drop (linspace01 N).length := by
    unfold writeSlice
    simp
  rw [h1]
  rw [writeSlice_chain (linspace01 N) _ _ N hxs]
  rw [writeSlice_chain _ _ _ (2 * N) (by simp [hxs, hys]; omega)]
  rw [writeSlice_chain _ _ _ (3 * N) (by simp [hxs, hys]; omega)]
  rw [writeSlice_chain _ _ _ (4 * N) (by simp [hxs, hys]; omega)]
  rw [writeSlice_chain _ _ _ (5 * N) (by simp [hxs, hys]; omega)]
  rw [writeSlice_chain _ _ _ (6 * N) (by simp [hxs, hys]; omega)]
  rw [writeSlice_chain _ _ _ (7 * N) (by simp [hxs, hys]; omega)]
  have htail : ((((((((buf.drop (linspace01 N).length).drop
      ((linspace01 N).map (fun u => polyval poly u)).length).drop
      (List.replicate N (0 : ℝ)).length).drop
      (List.replicate N v).length).drop
      (List.replicate N cte).length).drop
      (List.replicate N epsi).length).drop
      (List.replicate N (a.getD 0)).length).drop
      (List.replicate N (delta.getD 0)).length) = [] := by
    apply List.eq_nil_of_length_eq_zero
    simp only [List.length_drop, List.length_replicate, hxs, hys, h]
    omega
  rw [htail]
  simp [List.append_assoc]

/-- Unrolled-loop form check: the source's `curve` sum equals Horner
evaluation of the coefficient list, highest degree first. -/
theorem curveAt_eq_polyval (p : Poly4) (xv : ℝ) :
    curveAt p xv = polyval [p.poly0, p.poly1, p.poly2, p.poly3] xv := by
  simp only [curveAt, polyval, List.foldl_cons, List.foldl_nil]
  ring

/-- Analytic content of the `ψdes` row: the source's `ψdes` sum is the
derivative of the evaluation map of the local polynomial. -/
theorem hasDerivAt_polyval4 (c0 c1 c2 c3 xv : ℝ) :
    HasDerivAt (fun u => polyval [c0, c1, c2, c3] u)
      (psiDesAt ⟨c0, c1, c2, c3⟩ xv) xv := by
  have hfun : (fun u => polyval [c0, c1, c2, c3] u) =
      fun u : ℝ => c0 * u ^ 3 + c1 * u ^ 2 + c2 * u + c3 := by
    funext u
    simp only [polyval, List.foldl_cons, List.foldl_nil]
    ring
  rw [hfun]
  have h3 : HasDerivAt (fun u : ℝ => c0 * u ^ 3) (c0 * ((3 : ℕ) * xv ^ 2)) xv :=
    (hasDerivAt_pow 3 xv).const_mul c0
  have h2 : HasDerivAt (fun u : ℝ => c1 * u ^ 2) (c1 * ((2 : ℕ) * xv ^ 1)) xv :=
    (hasDerivAt_pow 2 xv).const_mul c1
  have h1 : HasDerivAt (fun u : ℝ => c2 * u) (c2 * 1) xv :=
    (hasDerivAt_id xv).const_mul c2
  have h0 : HasDerivAt (fun _ : ℝ => c3) 0 xv := hasDerivAt_const xv c3
  have := ((h3.add h2).add h1).add h0
  convert this using 1
  simp only [psiDesAt]
  push_cast
  ring

/-- Consequence for the Mathlib `deriv` operator used on the
specification side. -/
theorem deriv_polyval4 (c0 c1 c2 c3 xv : ℝ) :
    deriv (fun u => polyval [c0, c1, c2, c3] u) xv = psiDesAt ⟨c0, c1, c2, c3⟩ xv :=
  (hasDerivAt_polyval4 c0 c1 c2 c3 xv).deriv

/-- Pointwise agreement of the source-side and specification-side
constraint expressions. -/
theorem eq_constr_eq_specConstr (N : ℕ) (dt Lf : ℝ) (poly : Poly4) (init : InitState)
    (s : StateVar) (t : ℕ) (vars : ℕ → ℝ) :
    eq_constr N dt Lf poly init s t vars = specConstr N dt Lf poly init s t vars := by
  unfold eq_constr specConstr
  split
  · rfl
  · cases s
    · rfl
    · rfl
    · rfl
    · rfl
    · rw [curveAt_eq_polyval]
    · rw [deriv_polyval4]

/-- Blockwise agreement of the constraint lists. -/
theorem constrBlock_eq_specBlock (N : ℕ) (dt Lf : ℝ) (s : StateVar) :
    constrBlock N dt Lf s = specBlock N dt Lf s := by
  unfold constrBlock specBlock
  congr 1
  funext t
  congr 1
  funext init poly vars
  exact eq_constr_eq_specConstr N dt Lf poly init s t vars

/-- Entries of the unconstrained region of the bounds list. -/
theorem bounds_getD_lo (N : ℕ) (mt ms : ℝ) (i : ℕ) (hi : i < 6 * N) :
    (bounds N mt ms).getD i (none, none) = (none, none) := by
  unfold bounds
  rw [getD_append_lt _ _ _ _ (by simpa using hi)]
  exact getD_replicate_lt _ _ _ _ hi

/-- Entries of the throttle region of the bounds list. -/
theorem bounds_getD_mid (N : ℕ) (mt ms : ℝ) (i : ℕ) (h1 : 6 * N ≤ i) (h2 : i < 7 * N) :
    (bounds N mt ms).getD i (none, none) = (some 0, some mt) := by
  unfold bounds
  rw [getD_append_ge _ _ _ _ (by simpa using h1)]
  rw [getD_append_lt _ _ _ _ (by simp; omega)]
  exact getD_replicate_lt _ _ _ _ (by simp; omega)

/-- Entries of the steering region of the bounds list. -/
theorem bounds_getD_hi (N : ℕ) (mt ms : ℝ) (i : ℕ) (h1 : 7 * N ≤ i) (h2 : i < 8 * N) :
    (bounds N mt ms).getD i (none, none) = (some (-ms), some ms) := by
  unfold bounds
  rw [getD_append_ge _ _ _ _ (by simpa using (by omega : 6 * N ≤ i))]
  rw [getD_append_ge _ _ _ _ (by simp; omega)]
  exact getD_replicate_lt _ _ _ _ (by simp; omega)

/-- Every entry of a constraint block is registered with type `'eq'`. -/
theorem constrBlock_types (N : ℕ) (dt Lf : ℝ) (s : StateVar) :
    ∀ e ∈ constrBlock N dt Lf s, e.1 = "eq" := by
  intro e he
  unfold constrBlock at he
  obtain ⟨t, _, rfl⟩ := List.mem_map.mp he
  rfl

/-- Claim C2: for every horizon length N ≥ 1 the symbolic cost built at
construction equals the sum over t = 0..N−1 of
w_cte·cte[t]² + w_eψ·eψ[t]² + w_speed·(v[t]−target_speed)² + w_acc·a[t]²
+ w_steer·δ[t]², plus the sum over t = 0..N−2 of
w_dacc·(a[t+1]−a[t])² + w_dsteer·(δ[t+1]−δ[t])², with the default
weights 100, 100, 0.4, 1, 0.1 and both smoothing weights 50. -/
theorem C2_cost_default_weights (N : ℕ) (h : 1 ≤ N) (target_speed : ℝ) (vars : ℕ → ℝ) :
    cost N target_speed vars =
      (∑ t ∈ Finset.range N,
        ((100 : ℝ) * cteAt N vars t ^ 2 + (100 : ℝ) * epsiAt N vars t ^ 2 +
          (0.4 : ℝ) * (vAt N vars t - target_speed) ^ 2 +
          (1 : ℝ) * aAt N vars t ^ 2 + (0.1 : ℝ) * deltaAt N vars t ^ 2)) +
      ∑ t ∈ Finset.range (N - 1),
        ((50 : ℝ) * (aAt N vars (t + 1) - aAt N vars t) ^ 2 +
          (50 : ℝ) * (deltaAt N vars (t + 1) - deltaAt N vars t) ^ 2) := by
  unfold cost
  rw [foldl_add_range, foldl_add_range]
  simp only [cte_coeff, epsi_coeff, speed_coeff, acc_coeff, steer_coeff,
    consec_acc_coeff, consec_steer_coeff, zero_add]

/-- Witness for C2 at the concrete horizon N = 2. -/
theorem C2_cost_default_weights_witness :
    (1 ≤ 2) ∧
      cost 2 5 (fun i => (i : ℝ)) =
        (∑ t ∈ Finset.range 2,
          ((100 : ℝ) * cteAt 2 (fun i => (i : ℝ)) t ^ 2 +
            (100 : ℝ) * epsiAt 2 (fun i => (i : ℝ)) t ^ 2 +
            (0.4 : ℝ) * (vAt 2 (fun i => (i : ℝ)) t - 5) ^ 2 +
            (1 : ℝ) * aAt 2 (fun i => (i : ℝ)) t ^ 2 +
            (0.1 : ℝ) * deltaAt 2 (fun i => (i : ℝ)) t ^ 2)) +
        ∑ t ∈ Finset.range (2 - 1),
          ((50 : ℝ) * (aAt 2 (fun i => (i : ℝ)) (t + 1) - aAt 2 (fun i => (i : ℝ)) t) ^ 2 +
            (50 : ℝ) *
              (deltaAt 2 (fun i => (i : ℝ)) (t + 1) - deltaAt 2 (fun i => (i : ℝ)) t) ^ 2) :=
  ⟨by norm_num, C2_cost_default_weights 2 (by norm_num) 5 (fun i => (i : ℝ))⟩

/-- Claim C3: construction produces exactly 6N constraint entries, an
8N-length warm-start buffer, and an 8N-length bounds list whose first 6N
entries are unconstrained, next N entries are (0, max_throttle) and last
N entries are (−max_steering, max_steering). -/
theorem C3_sizes_and_bounds (N : ℕ) (h : 1 ≤ N) (dt Lf max_throttle max_steering : ℝ) :
    (constr_funcs N dt Lf).length = 6 * N ∧
    (state0_init N).length = 8 * N ∧
    (bounds N max_throttle max_steering).length = 8 * N ∧
    (∀ i, i < 6 * N →
      (bounds N max_throttle max_steering).getD i (none, none) = (none, none)) ∧
    (∀ i, 6 * N ≤ i → i < 7 * N →
      (bounds N max_throttle max_steering).getD i (none, none) =
        (some 0, some max_throttle)) ∧
    (∀ i, 7 * N ≤ i → i < 8 * N →
      (bounds N max_throttle max_steering).getD i (none, none) =
        (some (-max_steering), some max_steering)) := by
  refine ⟨?_, ?_, ?_, ?_, ?_, ?_⟩
  · simp only [constr_funcs, constrBlock, List.length_append, List.length_map,
      List.length_range]
    omega
  · simp only [state0_init, num_vars, state_vars, List.length_replicate, List.length_cons,
      List.length_nil]
    omega
  · simp only [bounds, List.length_append, List.length_replicate]
    omega
  · intro i hi
    exact bounds_getD_lo N max_throttle max_steering i hi
  · intro i h1 h2
    exact bounds_getD_mid N max_throttle max_steering i h1 h2
  · intro i h1 h2
    exact bounds_getD_hi N max_throttle max_steering i h1 h2

/-- Witness for C3 at the concrete horizon N = 1. -/
theorem C3_sizes_and_bounds_witness :
    (1 ≤ 1) ∧
      ((constr_funcs 1 (1 / 10) (5 / 2)).length = 6 * 1 ∧
        (state0_init 1).length = 8 * 1 ∧
        (bounds 1 1 1).length = 8 * 1 ∧
        (∀ i, i < 6 * 1 → (bounds 1 1 1).getD i (none, none) = (none, none)) ∧
        (∀ i, 6 * 1 ≤ i → i < 7 * 1 →
          (bounds 1 1 1).getD i (none, none) = (some 0, some 1)) ∧
        (∀ i, 7 * 1 ≤ i → i < 8 * 1 →
          (bounds 1 1 1).getD i (none, none) = (some (-1), some 1))) :=
  ⟨le_refl 1, C3_sizes_and_bounds 1 (le_refl 1) (1 / 10) (5 / 2) 1 1⟩

/-- Claim C4 counterexample: with heading ψ = 0, vehicle at the origin and
waypoint at world position (0, 1), the code's local y-coordinate is −1
while the claimed pure-rotation formula
−sin(ψ)·(wx−x) + cos(ψ)·(wy−y) gives +1. -/
theorem C4_counterexample :
    (modified_transform_into_cars_coordinate_system 0 1 0 0 (Real.cos 0) (Real.sin 0)).2 ≠
      -Real.sin 0 * (0 - 0) + Real.cos 0 * (1 - 0) := by
  simp [modified_transform_into_cars_coordinate_system]
  norm_num

/-- Claim C4 as amended: the per-tick local coordinates are
local_x = cos(ψ)·(wx−x) + sin(ψ)·(wy−y) and
local_y = sin(ψ)·(wx−x) − cos(ψ)·(wy−y) — the negation of the claimed
local_y, i.e. the rotation by −ψ composed with a reflection of the
lateral axis. -/
theorem C4_local_coordinates (wx wy x y psi : ℝ) :
    modified_transform_into_cars_coordinate_system wx wy x y
        (Real.cos psi) (Real.sin psi) =
      (Real.cos psi * (wx - x) + Real.sin psi * (wy - y),
       Real.sin psi * (wx - x) - Real.cos psi * (wy - y)) ∧
    (modified_transform_into_cars_coordinate_system wx wy x y
        (Real.cos psi) (Real.sin psi)).2 =
      -(-Real.sin psi * (wx - x) + Real.cos psi * (wy - y)) := by
  constructor
  · rfl
  · simp only [modified_transform_into_cars_coordinate_system]
    ring

/-- Value of the derived cross-track error in the lateral-offset scenario:
vehicle at the origin with heading 0, waypoint at (10, 2). -/
theorem scenario_cte_value :
    (polyfit1
        (modified_transform_into_cars_coordinate_system 10 2 0 0
          (Real.cos 0) (Real.sin 0)).1
        (modified_transform_into_cars_coordinate_system 10 2 0 0
          (Real.cos 0) (Real.sin 0)).2 3).getD
      ((polyfit1
          (modified_transform_into_cars_coordinate_system 10 2 0 0
            (Real.cos 0) (Real.sin 0)).1
          (modified_transform_into_cars_coordinate_system 10 2 0 0
            (Real.cos 0) (Real.sin 0)).2 3).length - 1) 0 = -(1 / 2) := by
  have h10 : modified_transform_into_cars_coordinate_system 10 2 0 0
      (Real.cos 0) (Real.sin 0) = (10, -2) := by
    simp [modified_transform_into_cars_coordinate_system]
  rw [h10]
  norm_num [polyfit1, List.range_succ]

/-- Claim C5 counterexample: in the lateral-offset scenario (vehicle at
the origin, heading 0, waypoint at (10, 2)) the constant term of the
fitted polynomial — the cte derived by `run_step` — is not positive. -/
theorem C5_counterexample :
    ¬ (0 <
      (polyfit1
          (modified_transform_into_cars_coordinate_system 10 2 0 0
            (Real.cos 0) (Real.sin 0)).1
          (modified_transform_into_cars_coordinate_system 10 2 0 0
            (Real.cos 0) (Real.sin 0)).2 3).getD
        ((polyfit1
            (modified_transform_into_cars_coordinate_system 10 2 0 0
              (Real.cos 0) (Real.sin 0)).1
            (modified_transform_into_cars_coordinate_system 10 2 0 0
              (Real.cos 0) (Real.sin 0)).2 3).length - 1) 0) := by
  rw [scenario_cte_value]
  norm_num

/-- Claim C5 as amended: in the lateral-offset scenario the fitted
polynomial's constant term equals −1/2, so the derived cross-track error
is negative. -/
theorem C5_negative_intercept :
    (polyfit1
        (modified_transform_into_cars_coordinate_system 10 2 0 0
          (Real.cos 0) (Real.sin 0)).1
        (modified_transform_into_cars_coordinate_system 10 2 0 0
          (Real.cos 0) (Real.sin 0)).2 3).getD
      ((polyfit1
          (modified_transform_into_cars_coordinate_system 10 2 0 0
            (Real.cos 0) (Real.sin 0)).1
          (modified_transform_into_cars_coordinate_system 10 2 0 0
            (Real.cos 0) (Real.sin 0)).2 3).length - 1) 0 = -(1 / 2) ∧
    (polyfit1
        (modified_transform_into_cars_coordinate_system 10 2 0 0
          (Real.cos 0) (Real.sin 0)).1
        (modified_transform_into_cars_coordinate_system 10 2 0 0
          (Real.cos 0) (Real.sin 0)).2 3).getD
      ((polyfit1
          (modified_transform_into_cars_coordinate_system 10 2 0 0
            (Real.cos 0) (Real.sin 0)).1
          (modified_transform_into_cars_coordinate_system 10 2 0 0
            (Real.cos 0) (Real.sin 0)).2 3).length - 1) 0 < 0 := by
  constructor
  · exact scenario_cte_value
  · rw [scenario_cte_value]
    norm_num

/-- Claim C6: on every successful solve, `run_step` takes the returned
steering from index 7N of the flattened 8N solution vector (the first
steering entry δ[0] of the layout x, y, ψ, v, cte, eψ, a, δ) and the
returned throttle from index 6N (the first acceleration entry a[0]). -/
theorem C6_first_actuator_extraction (cfg : Config) (st : CtrlState)
    (x y psi v wx wy : ℝ) (r : OptResult)
    (hN : 1 ≤ cfg.steps_ahead) (hs : r.success = true)
    (hlen : r.x.length = 8 * cfg.steps_ahead) :
    (run_step cfg st x y psi v wx wy (fun _ _ _ => r)).control.steering =
        some (r.x.getD (7 * cfg.steps_ahead) 0) ∧
    (run_step cfg st x y psi v wx wy (fun _ _ _ => r)).control.throttle =
        some (r.x.getD (6 * cfg.steps_ahead) 0) ∧
    r.x.getD (7 * cfg.steps_ahead) 0 =
        deltaAt cfg.steps_ahead (fun i => r.x.getD i 0) 0 ∧
    r.x.getD (6 * cfg.steps_ahead) 0 =
        aAt cfg.steps_ahead (fun i => r.x.getD i 0) 0 := by
  have e1 : r.x.length - cfg.steps_ahead = 7 * cfg.steps_ahead := by omega
  have e2 : r.x.length - 2 * cfg.steps_ahead = 6 * cfg.steps_ahead := by omega
  unfold run_step
  dsimp only
  rw [hs, if_pos rfl]
  refine ⟨?_, ?_, ?_, ?_⟩
  · dsimp only
    rw [e1]
  · dsimp only
    rw [e2]
  · dsimp only [deltaAt]
    norm_num
  · dsimp only [aAt]
    norm_num

/-- Witness for C6: horizon 1, a successful solve whose length-8 solution
vector has first acceleration entry 6 and first steering entry 7. -/
theorem C6_first_actuator_extraction_witness :
    (1 ≤ (1 : ℕ)) ∧ (OptResult.mk true [0, 1, 2, 3, 4, 5, 6, 7]).success = true ∧
      ((OptResult.mk true ([0, 1, 2, 3, 4, 5, 6, 7] : List ℝ)).x.length = 8 * 1) ∧
      ((run_step ⟨1, 1, 1⟩ ⟨none, none, List.replicate 8 0⟩ 0 0 0 1 10 2
          (fun _ _ _ => OptResult.mk true [0, 1, 2, 3, 4, 5, 6, 7])).control.steering =
        some ((OptResult.mk true ([0, 1, 2, 3, 4, 5, 6, 7] : List ℝ)).x.getD (7 * 1) 0) ∧
      (run_step ⟨1, 1, 1⟩ ⟨none, none, List.replicate 8 0⟩ 0 0 0 1 10 2
          (fun _ _ _ => OptResult.mk true [0, 1, 2, 3, 4, 5, 6, 7])).control.throttle =
        some ((OptResult.mk true ([0, 1, 2, 3, 4, 5, 6, 7] : List ℝ)).x.getD (6 * 1) 0) ∧
      (OptResult.mk true ([0, 1, 2, 3, 4, 5, 6, 7] : List ℝ)).x.getD (7 * 1) 0 =
        deltaAt 1 (fun i => (OptResult.mk true ([0, 1, 2, 3, 4, 5, 6, 7] : List ℝ)).x.getD i 0) 0 ∧
      (OptResult.mk true ([0, 1, 2, 3, 4, 5, 6, 7] : List ℝ)).x.getD (6 * 1) 0 =
        aAt 1 (fun i => (OptResult.mk true ([0, 1, 2, 3, 4, 5, 6, 7] : List ℝ)).x.getD i 0) 0) :=
  ⟨le_refl 1, rfl, by norm_num,
    C6_first_actuator_extraction ⟨1, 1, 1⟩ ⟨none, none, List.replicate 8 0⟩ 0 0 0 1 10 2
      (OptResult.mk true [0, 1, 2, 3, 4, 5, 6, 7]) (le_refl 1) rfl (by norm_num)⟩

/-- Claim C7: whenever the solver reports non-success, the tick completes
(the embedding is a total function — the failure branch only logs),
the returned command carries no new steering/throttle values, the stored
prior command is untouched, and exactly one debug-level event is logged. -/
theorem C7_failure_keeps_prior (cfg : Config) (st : CtrlState) (x y psi v wx wy : ℝ)
    (solver : List (Option ℝ × Option ℝ) → List ℝ → List ℝ → OptResult)
    (hf : ∀ b s0 init, (solver b s0 init).success = false) :
    (run_step cfg st x y psi v wx wy solver).control.steering = none ∧
    (run_step cfg st x y psi v wx wy solver).control.throttle = none ∧
    (run_step cfg st x y psi v wx wy solver).state.steer = st.steer ∧
    (run_step cfg st x y psi v wx wy solver).state.throttle = st.throttle ∧
    (run_step cfg st x y psi v wx wy solver).log =
      [(LogLevel.debug, "Unsuccessful optimization")] := by
  unfold run_step
  dsimp only
  rw [hf, if_neg (by simp)]
  exact ⟨rfl, rfl, rfl, rfl, rfl⟩

/-- Witness for C7 with a solver that always reports failure. -/
theorem C7_failure_keeps_prior_witness :
    (∀ (b : List (Option ℝ × Option ℝ)) (s0 init : List ℝ),
      ((fun (_ : List (Option ℝ × Option ℝ)) (_ : List ℝ) (_ : List ℝ) =>
        OptResult.mk false []) b s0 init).success = false) ∧
    ((run_step ⟨1, 1, 1⟩ ⟨some (3 / 10), some (7 / 10), List.replicate 8 0⟩ 0 0 0 1 10 2
        (fun _ _ _ => OptResult.mk false [])).control.steering = none ∧
      (run_step ⟨1, 1, 1⟩ ⟨some (3 / 10), some (7 / 10), List.replicate 8 0⟩ 0 0 0 1 10 2
        (fun _ _ _ => OptResult.mk false [])).control.throttle = none ∧
      (run_step ⟨1, 1, 1⟩ ⟨some (3 / 10), some (7 / 10), List.replicate 8 0⟩ 0 0 0 1 10 2
        (fun _ _ _ => OptResult.mk false [])).state.steer =
        (CtrlState.mk (some (3 / 10)) (some (7 / 10)) (List.replicate 8 0)).steer ∧
      (run_step ⟨1, 1, 1⟩ ⟨some (3 / 10), some (7 / 10), List.replicate 8 0⟩ 0 0 0 1 10 2
        (fun _ _ _ => OptResult.mk false [])).state.throttle =
        (CtrlState.mk (some (3 / 10)) (some (7 / 10)) (List.replicate 8 0)).throttle ∧
      (run_step ⟨1, 1, 1⟩ ⟨some (3 / 10), some (7 / 10), List.replicate 8 0⟩ 0 0 0 1 10 2
        (fun _ _ _ => OptResult.mk false [])).log =
        [(LogLevel.debug, "Unsuccessful optimization")]) :=
  ⟨fun _ _ _ => rfl,
    C7_failure_keeps_prior ⟨1, 1, 1⟩ ⟨some (3 / 10), some (7 / 10), List.replicate 8 0⟩
      0 0 0 1 10 2 (fun _ _ _ => OptResult.mk false []) (fun _ _ _ => rfl)⟩

/-- Claim C8, evaluated against the code: `run_step` never stores the
commanded actuators — the controller state's steer/throttle fields are
preserved verbatim on every tick, successful or not; the initial state
has no prior command; and with no prior command the warm-start vector's
two actuator series (the last 2N entries) are zero.  Hence zeros seed
the actuator series on every tick, not only the first. -/
theorem C8_prior_command_never_stored :
    (∀ (cfg : Config) (st : CtrlState) (x y psi v wx wy : ℝ)
      (solver : List (Option ℝ × Option ℝ) → List ℝ → List ℝ → OptResult),
      (run_step cfg st x y psi v wx wy solver).state.steer = st.steer ∧
      (run_step cfg st x y psi v wx wy solver).state.throttle = st.throttle) ∧
    (∀ N : ℕ, (initCtrlState N).steer = none ∧ (initCtrlState N).throttle = none) ∧
    (∀ (N : ℕ) (buf : List ℝ) (v cte epsi : ℝ) (poly : List ℝ), buf.length = 8 * N →
      (get_state0 N buf v cte epsi none none poly).drop (6 * N) =
        List.replicate (2 * N) 0) := by
  refine ⟨?_, ?_, ?_⟩
  · intro cfg st x y psi v wx wy solver
    unfold run_step
    dsimp only
    split <;> exact ⟨rfl, rfl⟩
  · intro N
    exact ⟨rfl, rfl⟩
  · intro N buf v cte epsi poly h
    rw [get_state0_eq N buf v cte epsi none none poly h]
    have hassoc :
        linspace01 N ++
            ((linspace01 N).map (fun u => polyval poly u) ++
              (List.replicate N (0 : ℝ) ++
                (List.replicate N v ++
                  (List.replicate N cte ++
                    (List.replicate N epsi ++
                      (List.replicate N ((none : Option ℝ).getD 0) ++
                        List.replicate N ((none : Option ℝ).getD 0))))))) =
          (linspace01 N ++
            ((linspace01 N).map (fun u => polyval poly u) ++
              (List.replicate N (0 : ℝ) ++
                (List.replicate N v ++
                  (List.replicate N cte ++ List.replicate N epsi))))) ++
            (List.replicate N ((none : Option ℝ).getD 0) ++
              List.replicate N ((none : Option ℝ).getD 0)) := by
      simp [List.append_assoc]
    rw [hassoc, List.drop_left' (by
      simp only [List.length_append, List.length_map, List.length_replicate,
        linspace01_length]
      omega)]
    simp only [Option.getD_none]
    rw [two_mul, List.replicate_add]

/-- Witness for C8: a concrete tick whose solver succeeds with nonzero
actuators still leaves the stored command empty, and the follow-up
warm start carries zero actuator entries. -/
theorem C8_prior_command_never_stored_witness :
    (run_step ⟨1, 1, 1⟩ (initCtrlState 1) 0 0 0 1 10 2
        (fun _ _ _ => OptResult.mk true [0, 0, 0, 0, 0, 0, 7 / 10, 3 / 10])).state.steer =
      (initCtrlState 1).steer ∧
    (initCtrlState 1).steer = none ∧
    (List.replicate 8 (0 : ℝ)).length = 8 * 1 ∧
    (get_state0 1 (List.replicate 8 (0 : ℝ)) 5 6 7 none none [0, 0, 0, 6]).drop (6 * 1) =
      List.replicate (2 * 1) 0 := by
  refine ⟨?_, ?_, by norm_num, ?_⟩
  · exact (C8_prior_command_never_stored.1 ⟨1, 1, 1⟩ (initCtrlState 1) 0 0 0 1 10 2
      (fun _ _ _ => OptResult.mk true [0, 0, 0, 0, 0, 0, 7 / 10, 3 / 10])).1
  · exact (C8_prior_command_never_stored.2.1 1).1
  · exact C8_prior_command_never_stored.2.2 1 (List.replicate 8 0) 5 6 7 [0, 0, 0, 6]
      (by norm_num)

/-- Claim C9 counterexample: for N = 2 the first six entries of the
decision vector are x[0], x[1], y[0], y[1], ψ[0], ψ[1] — not the t = 0
entries of the six series.  With initial-state parameters
(0, 1, 0, 0, 0, 0) and a decision vector whose first six entries equal
exactly those parameters, the t = 0 constraint for the y series
evaluates to −1, not 0. -/
theorem C9_counterexample :
    ((fun j => if j = 1 then (1 : ℝ) else 0) 0 = (InitState.mk 0 1 0 0 0 0).x_init ∧
      (fun j => if j = 1 then (1 : ℝ) else 0) 1 = (InitState.mk 0 1 0 0 0 0).y_init ∧
      (fun j => if j = 1 then (1 : ℝ) else 0) 2 = (InitState.mk 0 1 0 0 0 0).psi_init ∧
      (fun j => if j = 1 then (1 : ℝ) else 0) 3 = (InitState.mk 0 1 0 0 0 0).v_init ∧
      (fun j => if j = 1 then (1 : ℝ) else 0) 4 = (InitState.mk 0 1 0 0 0 0).cte_init ∧
      (fun j => if j = 1 then (1 : ℝ) else 0) 5 = (InitState.mk 0 1 0 0 0 0).epsi_init) ∧
    eq_constr 2 (1 / 10) (5 / 2) (Poly4.mk 0 0 0 0) (InitState.mk 0 1 0 0 0 0) .y 0
      (fun j => if j = 1 then (1 : ℝ) else 0) ≠ 0 := by
  refine ⟨⟨by norm_num, by norm_num, by norm_num, by norm_num, by norm_num, by norm_num⟩, ?_⟩
  simp [eq_constr, yAt]

/-- Claim C9 as amended: for every horizon N ≥ 1 and every choice of the
six initial-state parameters, the six t = 0 constraint evaluators all
return zero whenever the t = 0 entry of each state series — indices
0, N, 2N, 3N, 4N, 5N of the 8N-length decision vector — equals the
corresponding initial-state parameter (for N = 1 these are exactly the
first six entries). -/
theorem C9_anchoring (N : ℕ) (h : 1 ≤ N) (dt Lf : ℝ) (poly : Poly4) (init : InitState)
    (vars : ℕ → ℝ)
    (hx : vars 0 = init.x_init) (hy : vars N = init.y_init)
    (hpsi : vars (2 * N) = init.psi_init) (hv : vars (3 * N) = init.v_init)
    (hcte : vars (4 * N) = init.cte_init) (hepsi : vars (5 * N) = init.epsi_init) :
    ∀ s : StateVar, eq_constr N dt Lf poly init s 0 vars = 0 := by
  intro s
  cases s <;>
    simp [eq_constr, xAt, yAt, psiAt, vAt, cteAt, epsiAt, hx, hy, hpsi, hv, hcte, hepsi]

/-- Witness for C9 at N = 1 with the decision vector j ↦ j and parameters
(0, 1, 2, 3, 4, 5). -/
theorem C9_anchoring_witness :
    (1 ≤ 1) ∧
      ((fun j : ℕ => (j : ℝ)) 0 = (InitState.mk 0 1 2 3 4 5).x_init ∧
        (fun j : ℕ => (j : ℝ)) 1 = (InitState.mk 0 1 2 3 4 5).y_init ∧
        (fun j : ℕ => (j : ℝ)) (2 * 1) = (InitState.mk 0 1 2 3 4 5).psi_init ∧
        (fun j : ℕ => (j : ℝ)) (3 * 1) = (InitState.mk 0 1 2 3 4 5).v_init ∧
        (fun j : ℕ => (j : ℝ)) (4 * 1) = (InitState.mk 0 1 2 3 4 5).cte_init ∧
        (fun j : ℕ => (j : ℝ)) (5 * 1) = (InitState.mk 0 1 2 3 4 5).epsi_init) ∧
      ∀ s : StateVar,
        eq_constr 1 (1 / 10) (5 / 2) (Poly4.mk 0 0 0 0) (InitState.mk 0 1 2 3 4 5) s 0
          (fun j : ℕ => (j : ℝ)) = 0 :=
  ⟨le_refl 1, ⟨by norm_num, by norm_num, by norm_num, by norm_num, by norm_num, by norm_num⟩,
    C9_anchoring 1 (le_refl 1) (1 / 10) (5 / 2) (Poly4.mk 0 0 0 0) (InitState.mk 0 1 2 3 4 5)
      (fun j : ℕ => (j : ℝ)) (by norm_num) (by norm_num) (by norm_num) (by norm_num)
      (by norm_num) (by norm_num)⟩

/-- Claim C10: `get_state0` overwrites every one of the 8N entries of the
warm-start buffer before returning it, so identical arguments with any
two prior buffer contents produce identical initial-guess vectors — no
cross-tick history leaks through the reused buffer. -/
theorem C10_no_history_leak (N : ℕ) (b1 b2 : List ℝ) (v cte epsi : ℝ)
    (a delta : Option ℝ) (poly : List ℝ)
    (h1 : b1.length = 8 * N) (h2 : b2.length = 8 * N) :
    get_state0 N b1 v cte epsi a delta poly = get_state0 N b2 v cte epsi a delta poly := by
  rw [get_state0_eq N b1 v cte epsi a delta poly h1,
    get_state0_eq N b2 v cte epsi a delta poly h2]

/-- Witness for C10 with two different length-8 buffers. -/
theorem C10_no_history_leak_witness :
    ([1, 1, 1, 1, 1, 1, 1, 1] : List ℝ).length = 8 * 1 ∧
    ([2, 2, 2, 2, 2, 2, 2, 2] : List ℝ).length = 8 * 1 ∧
    get_state0 1 [1, 1, 1, 1, 1, 1, 1, 1] 3 4 5 (some (1 / 2)) none [0, 0, 0, 6] =
      get_state0 1 [2, 2, 2, 2, 2, 2, 2, 2] 3 4 5 (some (1 / 2)) none [0, 0, 0, 6] :=
  ⟨by norm_num, by norm_num,
    C10_no_history_leak 1 [1, 1, 1, 1, 1, 1, 1, 1] [2, 2, 2, 2, 2, 2, 2, 2] 3 4 5
      (some (1 / 2)) none [0, 0, 0, 6] (by norm_num) (by norm_num)⟩

/-- Claim C1: for every horizon length N ≥ 1, the equality constraints
built at construction are exactly — as an unordered collection — the six
t = 0 pins to the initial-state parameters together with, for every
t in 1..N−1, the six bicycle-model expressions in lhs-minus-rhs form
listed by the claim, where curve evaluates the local polynomial and
ψdes is its derivative (the content of `specConstrFuncs`, whose eψ row
literally uses the Mathlib derivative of the polynomial-evaluation map);
and every entry is registered as an equality ('eq') constraint.  The
permutation is needed only because the source iterates the series in the
order x, y, v, ψ, cte, eψ while the claim lists them as
x, y, ψ, v, cte, eψ. -/
theorem C1_equality_constraints (N : ℕ) (h : 1 ≤ N) (dt Lf : ℝ) :
    (constr_funcs N dt Lf).Perm (specConstrFuncs N dt Lf) ∧
    ∀ e ∈ constr_funcs N dt Lf, e.1 = "eq" := by
  constructor
  · unfold constr_funcs specConstrFuncs
    rw [constrBlock_eq_specBlock, constrBlock_eq_specBlock, constrBlock_eq_specBlock,
      constrBlock_eq_specBlock, constrBlock_eq_specBlock, constrBlock_eq_specBlock]
    refine List.Perm.append_left _ ?_
    refine List.Perm.append_left _ ?_
    exact List.perm_append_comm_assoc _ _ _
  · intro e he
    unfold constr_funcs at he
    rcases List.mem_append.mp he with h1 | h1
    · exact constrBlock_types N dt Lf .x e h1
    rcases List.mem_append.mp h1 with h2 | h2
    · exact constrBlock_types N dt Lf .y e h2
    rcases List.mem_append.mp h2 with h3 | h3
    · exact constrBlock_types N dt Lf .v e h3
    rcases List.mem_append.mp h3 with h4 | h4
    · exact constrBlock_types N dt Lf .psi e h4
    rcases List.mem_append.mp h4 with h5 | h5
    · exact constrBlock_types N dt Lf .cte e h5
    · exact constrBlock_types N dt Lf .epsi e h5

/-- Witness for C1 at the concrete horizon N = 1 with the default
timestep 0.1 and wheelbase 2.5. -/
theorem C1_equality_constraints_witness :
    (1 ≤ 1) ∧
      ((constr_funcs 1 (1 / 10) (5 / 2)).Perm (specConstrFuncs 1 (1 / 10) (5 / 2)) ∧
        ∀ e ∈ constr_funcs 1 (1 / 10) (5 / 2), e.1 = "eq") :=
  ⟨le_refl 1, C1_equality_constraints 1 (le_refl 1) (1 / 10) (5 / 2)⟩
